import Mathlib

/-!
Shallow embedding of the grid partitioning / catchment aggregation engine
(`grid_dataset.py`, `attribute.py`, `industrial_buildings.py`,
`industrial_footprint_in_catchment.py`).  Coordinates are modelled as
rationals (floating point overflow/rounding is not at issue in any claim);
the nearest-neighbour pipeline, whose claims are about the real constant pi,
is modelled over the reals.
-/

namespace PC

/-- A bounding box `(minx, miny, maxx, maxy)`, as used throughout
`grid_dataset.py` (fiona bbox tuples). -/
abbrev Box := ℚ × ℚ × ℚ × ℚ

/-- Closed-box membership of a point, the semantics of a bbox containing a
point (used for tile `validRegion` / `fullExtent` membership). -/
def inBox (b : Box) (p : ℚ × ℚ) : Prop :=
  b.1 ≤ p.1 ∧ p.1 ≤ b.2.2.1 ∧ b.2.1 ≤ p.2 ∧ p.2 ≤ b.2.2.2

instance (b : Box) (p : ℚ × ℚ) : Decidable (inBox b p) := by
  unfold inBox; infer_instance

/-- Two boxes intersect (share at least one point); this is the semantics of
fiona's `bbox=` filter applied to a feature whose geometry is a rectangle. -/
def boxIntersects (a b : Box) : Bool :=
  decide (a.1 ≤ b.2.2.1 ∧ b.1 ≤ a.2.2.1 ∧ a.2.1 ≤ b.2.2.2 ∧ b.2.1 ≤ a.2.2.2)

/-- One sub-grid descriptor dictionary built by `GridDataset.split`
(`grid_dataset.py:213-222`): a `valid_region` box, a `full_extent` box, the
NUTS allow-list and the source path. -/
structure SubGrid where
  valid_region : Box
  full_extent : Box
  valid_nuts : List String
  grid_path : String
deriving DecidableEq, Repr

/-- The x (resp. y) cursor positions visited by the `while x < bounds[2]`
loop of `GridDataset.split`: `lo, lo+step, lo+2*step, ...` while below `hi`.
(The Python loop does not terminate for `step ≤ 0`; the model returns `[]`
there, which no claim exercises.) -/
def positionsFrom (lo hi step : ℚ) : List ℚ :=
  if h : 0 < step ∧ lo < hi then
    lo :: positionsFrom (lo + step) hi step
  else []
termination_by ⌈(hi - lo) / step⌉₊
decreasing_by
  have hs : (0:ℚ) < step := h.1
  have hl : lo < hi := h.2
  have hpos : 0 < ⌈(hi - lo) / step⌉₊ := by
    rw [Nat.ceil_pos]
    exact div_pos (by linarith) hs
  have key : (hi - (lo + step)) / step ≤ (⌈(hi - lo) / step⌉₊ : ℚ) - 1 := by
    have h1 : (hi - (lo + step)) / step = (hi - lo) / step - 1 := by
      field_simp
      ring
    rw [h1]
    linarith [Nat.le_ceil ((hi - lo) / step)]
  have hle : ⌈(hi - (lo + step)) / step⌉₊ ≤ ⌈(hi - lo) / step⌉₊ - 1 := by
    apply Nat.ceil_le.mpr
    rw [Nat.cast_sub hpos]
    simpa using key
  omega

/-- `GridDataset.split` (`grid_dataset.py:205-225`), descriptor-generation
part: the nested `while` loops over x (outer) and y (inner) producing one
`SubGrid` per cursor position. -/
def split (bounds : Box) (split_size buffer_size : ℚ) (valid_nuts : List String)
    (grid_path : String) (cell_size : ℚ) : List SubGrid :=
  (positionsFrom bounds.1 bounds.2.2.1 split_size).flatMap fun x =>
    (positionsFrom bounds.2.1 bounds.2.2.2 split_size).map fun y =>
      { valid_region :=
          (x + cell_size / 2, y + cell_size / 2, x + split_size - cell_size / 2,
            y + split_size - cell_size / 2),
        full_extent :=
          (x - buffer_size + cell_size / 2, y - buffer_size + cell_size / 2,
            x + split_size + buffer_size - cell_size / 2,
            y + split_size + buffer_size - cell_size / 2),
        valid_nuts := valid_nuts,
        grid_path := grid_path }

/-- A source-grid feature as read by fiona in `_make_sub_grid_obj`: a
rectangular geometry plus the four NUTS region codes (raw property strings,
possibly carrying a `-`-separated suffix). -/
structure FRow where
  geometry : Box
  nuts_0_id : String
  nuts_1_id : String
  nuts_2_id : String
  nuts_3_id : String
deriving DecidableEq, Repr

/-- Python `s.split("-")[0]`. -/
def headSplitDash (s : String) : String := (s.splitOn "-").headD s

/-- The region allow-list test of `_make_sub_grid_obj` (grid_dataset.py:24-25):
`not valid_nuts or any(n in [nuts_0_id, ...] for n in valid_nuts)`.  An empty
allow-list (Python `None` or `[]`, both falsy) admits every row. -/
def nutsMatch (valid_nuts : List String) (r : FRow) : Bool :=
  valid_nuts.isEmpty ||
    valid_nuts.any fun n =>
      n == headSplitDash r.nuts_0_id || n == headSplitDash r.nuts_1_id ||
      n == headSplitDash r.nuts_2_id || n == headSplitDash r.nuts_3_id

/-- The sub-grid state produced by `GridDataset.prepare_subgrid`
(grid_dataset.py:55-64). -/
structure PreparedGrid where
  valid_region : Box
  full_extent : Box
  valid_nuts : List String
  input_file : String
  complete : Bool
  attempts : ℕ
deriving DecidableEq, Repr

/-- `GridDataset.prepare_subgrid` (grid_dataset.py:55-64). -/
def prepareSubgrid (sg : SubGrid) : PreparedGrid :=
  { valid_region := sg.valid_region, full_extent := sg.full_extent,
    valid_nuts := sg.valid_nuts, input_file := sg.grid_path,
    complete := false, attempts := 0 }

/-- `_make_sub_grid_obj` (grid_dataset.py:16-27).  `coll` models the feature
collection `fiona.open(sub_grid_dict['grid_path'])`; the fiona `bbox=` filter
keeps rows whose geometry intersects `valid_region`; the loop returns a
prepared sub-grid on the first row passing the NUTS allow-list and `None`
when no row in the valid region passes. -/
def makeSubGridObj (coll : List FRow) (sg : SubGrid) : Option PreparedGrid :=
  match (coll.filter fun r => boxIntersects r.geometry sg.valid_region).find?
      (fun r => nutsMatch sg.valid_nuts r) with
  | some _ => some (prepareSubgrid sg)
  | none => none

/-- The single-core tile materialization loop of `GridDataset.split`
(grid_dataset.py:233-237): descriptors whose materialization returns `None`
are dropped from the split result. -/
def materializeAll (coll : List FRow) (descs : List SubGrid) : List PreparedGrid :=
  descs.filterMap (makeSubGridObj coll)

/-- A minimal geometry type for the catchment/aggregation model: axis-aligned
rectangles (grid cells and catchment footprints), points (degenerate
catchments) and disks (the `buffer(1)` replacement for point catchments at
grid_dataset.py:140). -/
inductive Geom where
  | rect (x1 y1 x2 y2 : ℚ)
  | point (x y : ℚ)
  | disk (x y r : ℚ)
deriving DecidableEq, Repr

/-- Point-in-geometry containment, the `op='contains'` predicate of the
spatial join at grid_dataset.py:157 applied to a centroid. -/
def Geom.containsPoint : Geom → ℚ × ℚ → Bool
  | .rect x1 y1 x2 y2, p => decide (x1 ≤ p.1 ∧ p.1 ≤ x2 ∧ y1 ≤ p.2 ∧ p.2 ≤ y2)
  | .point x y, p => decide (p.1 = x ∧ p.2 = y)
  | .disk x y r, p => decide ((p.1 - x) ^ 2 + (p.2 - y) ^ 2 ≤ r ^ 2)

/-- shapely `geom_type == 'Point'`. -/
def Geom.isPoint : Geom → Bool
  | .point _ _ => true
  | _ => false

/-- `geometry.buffer(d)` on the point geometries selected at
grid_dataset.py:140 (other geometries are left untouched there). -/
def Geom.bufferPoint : Geom → ℚ → Geom
  | .point x y, d => .disk x y d
  | g, _ => g

/-- A pandas aggregation operator from a catchment's `aggs` list; `eval`
applies it to the non-null values of one grouped column. -/
inductive AggOp where
  | opSum
  | opMean
  | opCount
  | opMax
  | opMin
deriving DecidableEq, Repr

/-- Semantics of one aggregation operator on a grouped column. -/
def AggOp.eval : AggOp → List ℚ → Option ℚ
  | .opSum, l => some (l.foldr (· + ·) 0)
  | .opMean, l => if l.length = 0 then none else some (l.foldr (· + ·) 0 / l.length)
  | .opCount, l => some l.length
  | .opMax, l => l.max?
  | .opMin, l => l.min?

/-- Modelled from the spec: the `Catchment` class itself is not among the
source files (only its callers are).  Per §3 it carries a deployment-unique
name, a cell-ID → geometry mapping, and the ordered `cols` / `aggs` /
`atts_to_agg` lists consumed by `GridDataset.compute_for_catchment`. -/
structure Catchment where
  catchment_name : String
  cells : List (String × Geom)
  cols : List String
  aggs : List AggOp
  atts_to_agg : List String
deriving DecidableEq, Repr

/-- Modelled from the spec (§4.3): `Catchment.append` unions the incoming
catchment's cell→geometry entries into this one by cell ID,
last-writer-wins (incoming wins) on collision. -/
def Catchment.append (self other : Catchment) : Catchment :=
  { self with
    cells :=
      (self.cells.filter fun p => (other.cells.lookup p.1).isNone) ++ other.cells }

/-- The grid state seen by `Attribute._apply_catchment_to_grid`: the
`grid.catchments` list and the names of the geometry columns present on
`grid.data`. -/
structure AGrid where
  catchments : List Catchment
  geom_columns : List String
deriving DecidableEq, Repr

/-- Modelled from the spec (§3) and the repository's test double
(`FakeCatchment.apply_catchment`): applying a catchment to a grid writes its
geometry column onto `grid.data` — a pandas column assignment, which
overwrites an existing column of the same name rather than duplicating it. -/
def Catchment.applyCatchment (c : Catchment) (g : AGrid) : AGrid :=
  if g.geom_columns.contains c.catchment_name then g
  else { g with geom_columns := g.geom_columns ++ [c.catchment_name] }

/-- Replace the first element satisfying `p` by `a` (the in-place Python
mutation of the object located by `next(...)`). -/
def updateFirst (l : List Catchment) (p : Catchment → Bool) (a : Catchment) :
    List Catchment :=
  match l with
  | [] => []
  | x :: xs => if p x then a :: xs else x :: updateFirst xs p a

/-- `Attribute._apply_catchment_to_grid` (attribute.py:119-137):
`make_fresh_catchment` is a no-op in the source, so the incoming catchment is
the attribute's own; if the grid already carries a catchment with the same
name the incoming entries are appended into it and the attribute's reference
is repointed to the merged object, otherwise the catchment is applied to the
grid and recorded.  Returns the attribute's new `self.catchment` reference
and the updated grid. -/
def applyCatchmentToGrid (incoming : Catchment) (g : AGrid) : Catchment × AGrid :=
  match g.catchments.find? (fun c => c.catchment_name == incoming.catchment_name) with
  | some existing =>
      (existing.append incoming,
        { g with
            catchments :=
              updateFirst g.catchments
                (fun c => c.catchment_name == incoming.catchment_name)
                (existing.append incoming) })
  | none =>
      (incoming,
        { incoming.applyCatchment g with
            catchments := g.catchments ++ [incoming] })

/-- One row of a tile's GeoDataFrame as consumed by
`GridDataset.compute_for_catchment`: the cell ID, the row's entry of the
precomputed `self.valid_filter` Boolean series, the centroid, the geometry
columns (one per applied catchment) and the remaining numeric columns.
Numeric entries are nullable (a left join fills absent groups with NaN). -/
structure GRow where
  grd_id : String
  valid : Bool
  centroid : ℚ × ℚ
  geoms : List (String × Geom)
  vals : List (String × Option ℚ)
deriving DecidableEq, Repr

/-- First-occurrence deduplication.  Models the iteration order of the Python
`set(catchment.cols)` at grid_dataset.py:150 (a set's iteration order is
unspecified; this model fixes first-occurrence order, which affects only the
column order of the aggregated frame, not any looked-up value). -/
def dedupFirst : List String → List String
  | [] => []
  | x :: xs => x :: (dedupFirst xs).filter fun y => y != x

/-- The `aggregations` dict built by the while loop at
grid_dataset.py:150-154: for one source column, the operators at the
positions where that column occurs in `cols` (the loop preserves the
positional pairing `cols[i] ↔ aggs[i]`). -/
def opsForL (cols : List String) (aggs : List AggOp) (col : String) : List AggOp :=
  (cols.zip aggs).filterMap fun p => if p.1 = col then some p.2 else none

/-- `dict(zip(catchment.cols, catchment.atts_to_agg))` as used by the
`rename` at grid_dataset.py:162; a Python dict keeps the last value bound to
a repeated key, and `rename` leaves unmapped column names unchanged. -/
def renameColL (cols atts : List String) (col : String) : String :=
  (((cols.zip atts).reverse).lookup col).getD col

/-- `opsForL` applied to a catchment's own lists. -/
def opsFor (c : Catchment) (col : String) : List AggOp :=
  opsForL c.cols c.aggs col

/-- `renameColL` applied to a catchment's own lists. -/
def renameCol (c : Catchment) (col : String) : String :=
  renameColL c.cols c.atts_to_agg col

/-- The `catchments` frame of grid_dataset.py:134-140: the valid rows'
(cell ID, catchment geometry) pairs, with point geometries replaced by
unit-radius disks (grid_dataset.py:140). -/
def catchRows (c : Catchment) (d : List GRow) : List (String × Geom) :=
  ((d.filter fun r => r.valid).filterMap fun r =>
      (r.geoms.lookup c.catchment_name).map fun g => (r.grd_id, g)).map
    fun p => (p.1, if p.2.isPoint then p.2.bufferPoint 1 else p.2)

/-- The source rows joined to one cell's catchment geometry by the
`op='contains'` spatial join of grid_dataset.py:157 (centroid of the source
row contained in the catchment geometry), restricted to the group of the
given cell ID. -/
def matchedRows (c : Catchment) (d : List GRow) (id : String) : List GRow :=
  ((catchRows c d).filterMap fun p => if p.1 = id then some p.2 else none).flatMap
    fun g => d.filter fun r => g.containsPoint r.centroid

/-- The group keys of `groupby("GRD_ID")` at grid_dataset.py:158: cell IDs of
catchment rows that matched at least one source row (the spatial join is an
inner join, so empty groups do not appear). -/
def groupIds (c : Catchment) (d : List GRow) : List String :=
  (dedupFirst ((catchRows c d).map fun p => p.1)).filter
    fun id => !(matchedRows c d id).isEmpty

/-- The non-null values of one column over a list of rows (pandas aggregation
skips missing values). -/
def colVals (col : String) (rows : List GRow) : List ℚ :=
  rows.filterMap fun r => (r.vals.lookup col).join

/-- The aggregated frame `r` of grid_dataset.py:156-162 after `droplevel(1)`,
`rename` and `reset_index`: for each group key, one renamed result column per
(distinct source column, bound operator) pair. -/
def aggFrame (c : Catchment) (d : List GRow) : List (String × List (String × Option ℚ)) :=
  (groupIds c d).map fun id =>
    (id,
      (dedupFirst c.cols).flatMap fun col =>
        (opsFor c col).map fun op =>
          (renameCol c col, op.eval (colVals col (matchedRows c d id))))

/-- The aggregated frame's column names other than `GRD_ID`, used to fill the
left join's misses with nulls. -/
def aggFrameCols (c : Catchment) : List String :=
  (dedupFirst c.cols).flatMap fun col => (opsFor c col).map fun _ => renameCol c col

/-- The per-row effect of the drop-and-merge at grid_dataset.py:163-164:
pre-existing columns named like the aggregation targets are dropped
(`errors='ignore'`), then the row receives the aggregate columns of its
`GRD_ID` group, or nulls if the group is absent (left join). -/
def stepVals (c : Catchment) (frame : List (String × List (String × Option ℚ)))
    (id : String) (vals : List (String × Option ℚ)) : List (String × Option ℚ) :=
  match frame.lookup id with
  | some newVals =>
      (vals.filter fun p => !(c.atts_to_agg.contains p.1)) ++ newVals
  | none =>
      (vals.filter fun p => !(c.atts_to_agg.contains p.1)) ++
        (aggFrameCols c).map fun n => (n, none)

/-- The whole-row view of `stepVals`: only the numeric columns change. -/
def stepRow (c : Catchment) (frame : List (String × List (String × Option ℚ)))
    (r : GRow) : GRow :=
  { r with vals := stepVals c frame r.grd_id r.vals }

/-- `GridDataset.compute_for_catchment` (grid_dataset.py:133-164). -/
def computeForCatchment (c : Catchment) (d : List GRow) : List GRow :=
  d.map (stepRow c (aggFrame c d))

/-- Rectangle-rectangle intersection; `none` when the interiors are disjoint
(degenerate boundary touches yield lower-dimensional geometries, which
`gpd.overlay`'s `keep_geom_type` drops).  The footprint pipeline below only
overlays rectangles, so the remaining combinations return `none`. -/
def geomIntersection : Geom → Geom → Option Geom
  | .rect ax1 ay1 ax2 ay2, .rect bx1 by1 bx2 by2 =>
      if max ax1 bx1 < min ax2 bx2 ∧ max ay1 by1 < min ay2 by2 then
        some (.rect (max ax1 bx1) (max ay1 by1) (min ax2 bx2) (min ay2 by2))
      else none
  | _, _ => none

/-- `overlays.area`: the overlay result of the footprint pipeline consists of
rectangles only (points and disks, whose area is not exercised by it, report
0). -/
def geomArea : Geom → ℚ
  | .rect x1 y1 x2 y2 => (x2 - x1) * (y2 - y1)
  | .point _ _ => 0
  | .disk _ _ _ => 0

/-- One row of the grid frame as seen by
`IndustrialFootprintInCatchment.apply_to`: cell ID, geometry columns (cell
geometry plus the applied catchment column) and numeric columns. -/
structure IRow where
  grd_id : String
  geoms : List (String × Geom)
  vals : List (String × ℚ)
deriving DecidableEq, Repr

/-- Pandas column assignment: overwrite an existing column of that name in
place, or append a new one. -/
def setCol {α : Type} : List (String × α) → String → α → List (String × α)
  | [], n, v => [(n, v)]
  | p :: ps, n, v => if p.1 = n then (n, v) :: ps else p :: setCol ps n v

/-- `groupby(['GRD_ID']).sum()` over the numeric columns of one group (every
overlay row carries the same column set). -/
def sumCols (rows : List (List (String × ℚ))) : List (String × ℚ) :=
  match rows with
  | [] => []
  | v :: _ => v.map fun p => (p.1, (rows.filterMap fun r => r.lookup p.1).foldr (· + ·) 0)

/-- pandas `merge(..., on='GRD_ID')` with its default `how='inner'` and
default suffixes: rows without a right-hand group are dropped, and column
names occurring on both sides (other than the key) are renamed `name_x`
(left) and `name_y` (right). -/
def mergeInnerSuffix (t : List IRow) (grouped : List (String × List (String × ℚ))) :
    List IRow :=
  t.filterMap fun r =>
    match grouped.lookup r.grd_id with
    | none => none
    | some gv =>
        some { r with vals :=
          (r.vals.map fun p =>
            if (gv.lookup p.1).isSome then (p.1 ++ "_x", p.2) else p) ++
          (gv.map fun p =>
            if (r.vals.lookup p.1).isSome then (p.1 ++ "_y", p.2) else p) }

/-- `IndustrialFootprintInCatchment.apply_to`
(industrial_footprint_in_catchment.py:14-22): write the catchment geometry
column onto the grid (`apply_catchment`, one geometry per row), overlay it
with the building footprints (`buildings` stands for the `IndustrialBuildings`
collaborator, mocked in the repository's tests), assign the footprint column
from the intersection areas (overwriting any stale column of that name inside
the overlay frame), sum per cell ID, and merge back with pandas defaults —
an inner join and `_x`/`_y` suffixes on colliding column names. -/
def ificApplyTo (catchName : String) (catchResults : List Geom)
    (buildings : List Geom) (t : List IRow) : List IRow :=
  let fpCol := "industrial_footprint_" ++ catchName
  let t2 := (t.zip catchResults).map fun rg =>
    { rg.1 with geoms := setCol rg.1.geoms catchName rg.2 }
  let overlays := t2.flatMap fun r =>
    buildings.filterMap fun b =>
      match r.geoms.lookup catchName with
      | none => none
      | some g =>
          match geomIntersection g b with
          | none => none
          | some inter => some (r.grd_id, setCol r.vals fpCol (geomArea inter))
  let ids := dedupFirst (overlays.map fun p => p.1)
  let grouped := ids.map fun id =>
    (id, sumCols ((overlays.filter fun p => p.1 = id).map fun p => p.2))
  mergeInnerSuffix t2 grouped

/-- Written from the spec's words, for comparison with `aggFrame`: "the same
source column may appear multiple times with different operators, and the
cartesian structure must be preserved: operator *i* always pairs with column
*i*"; every (column, operator) pair produces its own result column, named by
the pair's `atts_to_agg` entry. -/
def aggFrameSpec (c : Catchment) (d : List GRow) :
    List (String × List (String × Option ℚ)) :=
  (groupIds c d).map fun id =>
    (id,
      ((c.cols.zip c.aggs).zip c.atts_to_agg).map fun pa =>
        (pa.2, pa.1.2.eval (colVals pa.1.1 (matchedRows c d id))))

/-- A shapely geometry as consumed by the nearest-neighbour helpers of
`attribute.py`, which only access `geom.centroid.x` / `geom.centroid.y`: a
geometry is modelled by its centroid.  Real coordinates, because the claims
about this pipeline concern the constant `np.pi`. -/
structure SGeom where
  centroid : ℝ × ℝ

/-- `Attribute._get_centroid_coords` (attribute.py:247-292): EPSG:3035
centroids are used as-is, EPSG:4326 centroids are converted from degrees to
radians (`* np.pi / 180`), and any other CRS raises
`TypeError(f"{crs} is an unavailable crs for this operation")`.  The
GeoDataFrame branch and the list branch compute identically; the list branch
is modelled. -/
noncomputable def getCentroidCoords (data : List SGeom) (crs : ℤ) :
    Except String (List (ℝ × ℝ)) :=
  if crs = 3035 then
    .ok (data.map fun g => (g.centroid.1, g.centroid.2))
  else if crs = 4326 then
    .ok (data.map fun g =>
      (g.centroid.1 * Real.pi / 180, g.centroid.2 * Real.pi / 180))
  else
    .error (toString crs ++ " is an unavailable crs for this operation")

/-- Euclidean distance on the plane: the metric of
`sklearn.neighbors.BallTree` with its default (minkowski, p=2) metric, as
built by `Attribute.get_nearest` (attribute.py:188). -/
noncomputable def euclidDist (p q : ℝ × ℝ) : ℝ :=
  Real.sqrt ((p.1 - q.1) ^ 2 + (p.2 - q.2) ^ 2)

/-- The k=1 BallTree query for one source point: index and distance of a
nearest candidate (first index on ties). -/
noncomputable def argminScan (p : ℝ × ℝ) : List (ℝ × ℝ) → ℕ × ℝ
  | [] => (0, 0)
  | [q] => (0, euclidDist p q)
  | q :: q' :: rest =>
      if euclidDist p q ≤ (argminScan p (q' :: rest)).2 then (0, euclidDist p q)
      else ((argminScan p (q' :: rest)).1 + 1, (argminScan p (q' :: rest)).2)

/-- `Attribute.get_nearest` (attribute.py:166-203): for each source point the
index of its nearest candidate and the distance to it. -/
noncomputable def getNearest (src candidates : List (ℝ × ℝ)) : List ℕ × List ℝ :=
  (src.map fun p => (argminScan p candidates).1,
    src.map fun p => (argminScan p candidates).2)

/-- A Python float as returned in `nearest_neighbor`'s distance list:
either a finite value or `np.inf` (the empty-candidate placeholder). -/
inductive PyFloat where
  | val (x : ℝ)
  | inf

/-- `Attribute.nearest_neighbor` (attribute.py:205-245): an empty candidate
set short-circuits to NaN placeholders (modelled `none`) and infinite
distances; otherwise centroids are extracted under the given CRS (errors
propagate), the nearest candidate of each source geometry is looked up by
index in `right_data`, and for EPSG:4326 the distances are multiplied by the
Earth radius 6,371,000 m. -/
noncomputable def nearestNeighbor (left right : List SGeom) (crs : ℤ) :
    Except String (List (Option SGeom) × List PyFloat) :=
  if right.length = 0 then
    .ok (List.replicate left.length none, List.replicate left.length PyFloat.inf)
  else
    match getCentroidCoords left crs with
    | .error e => .error e
    | .ok leftCoords =>
      match getCentroidCoords right crs with
      | .error e => .error e
      | .ok rightCoords =>
        .ok ((getNearest leftCoords rightCoords).1.map fun i => right.get? i,
          if crs = 4326 then
            (getNearest leftCoords rightCoords).2.map fun d => PyFloat.val (d * 6371000)
          else
            (getNearest leftCoords rightCoords).2.map PyFloat.val)

/-- Written from the spec's words, for comparison with the code's metric: the
great-circle distance between two (longitude, latitude) points in degrees on
a sphere of the given radius (spherical law of cosines). -/
noncomputable def greatCircleDist (radius : ℝ) (p q : ℝ × ℝ) : ℝ :=
  radius * Real.arccos
    (Real.sin (p.2 * Real.pi / 180) * Real.sin (q.2 * Real.pi / 180) +
      Real.cos (p.2 * Real.pi / 180) * Real.cos (q.2 * Real.pi / 180) *
        Real.cos ((p.1 - q.1) * Real.pi / 180))

/-- An OSM node as seen by the handlers of `industrial_buildings.py`: raw
integer coordinates in 1e-7 degrees, plus whether the node carries an `id`
attribute (absent on the incomplete ways of a pbf extract,
industrial_buildings.py:47-49). -/
structure OsmNode where
  x : ℤ
  y : ℤ
  hasId : Bool
deriving DecidableEq, Repr

/-- An OSM way: its tag dictionary and its node list. -/
structure OsmWay where
  tags : List (String × String)
  nodes : List OsmNode
deriving DecidableEq, Repr

/-- A polygon as its vertex list
(`Polygon([[n.x/10000000, n.y/10000000] for n in w.nodes])`). -/
abbrev Poly := List (ℚ × ℚ)

/-- The polygon built from a way's nodes. -/
def wayPoly (w : OsmWay) : Poly :=
  w.nodes.map fun n => ((n.x : ℚ) / 10000000, (n.y : ℚ) / 10000000)

/-- shapely `Polygon.bounds` `(minx, miny, maxx, maxy)` (the source never
asks for the bounds of an empty polygon). -/
def polyBounds (p : Poly) : ℚ × ℚ × ℚ × ℚ :=
  ((p.map Prod.fst).foldr min ((p.headD (0, 0)).1),
    (p.map Prod.snd).foldr min ((p.headD (0, 0)).2),
    (p.map Prod.fst).foldr max ((p.headD (0, 0)).1),
    (p.map Prod.snd).foldr max ((p.headD (0, 0)).2))

/-- `way_is_in_zone` (industrial_buildings.py:42-51); `polyI` abstracts the
shapely `intersects` primitive of the external geometry library. -/
def wayIsInZone (polyI : Poly → Poly → Bool) (w : OsmWay) (zone : Poly) : Bool :=
  let b := polyBounds zone
  let nodesInBounds := w.nodes.filter fun n =>
    decide (b.1 < (n.x : ℚ) / 10000000 ∧ (n.x : ℚ) / 10000000 < b.2.2.1) &&
      decide (b.2.1 < (n.y : ℚ) / 10000000 ∧ (n.y : ℚ) / 10000000 < b.2.2.2)
  if nodesInBounds.length = 0 then false
  else if w.nodes.any fun n => !n.hasId then false
  else polyI (wayPoly w) zone

/-- `building_is_in_way` (industrial_buildings.py:88-95); `polyCentroid`
abstracts shapely's centroid.  Note the source's early return fires only when
the centroid is outside the x-range AND outside the y-range. -/
def buildingIsInWay (polyI : Poly → Poly → Bool) (polyCentroid : Poly → ℚ × ℚ)
    (building : Poly) (w : OsmWay) : Bool :=
  let xs := w.nodes.map fun n => (n.x : ℚ) / 10000000
  let ys := w.nodes.map fun n => (n.y : ℚ) / 10000000
  let bounds := (xs.foldr min (xs.headD 0), ys.foldr min (ys.headD 0),
    xs.foldr max (xs.headD 0), ys.foldr max (ys.headD 0))
  let c := polyCentroid building
  if (!decide (bounds.1 < c.1 ∧ c.1 < bounds.2.2.1)) &&
      (!decide (bounds.2.1 < c.2 ∧ c.2 < bounds.2.2.2)) then
    false
  else polyI (wayPoly w) building

/-- `industrial_building_tags` (industrial_buildings.py:141). -/
def industrialBuildingTags : List String :=
  ["industrial", "warehouse", "manufacture", "factory", "depot", "works",
    "workshop", "industrial_unit"]

/-- `other_industrial_landuse_tags` (industrial_buildings.py:98). -/
def otherIndustrialLanduseTags : List String :=
  ["commercial", "industrial_park", "harbour", "logistics", "port"]

/-- The `IndustrialBuildingHandler` pass (industrial_buildings.py:142-168):
ways with an industrial-type `building` tag. -/
def industrialBuildingsPass (ways : List OsmWay) : List Poly :=
  ways.filterMap fun w =>
    match w.tags.lookup "building" with
    | some v => if v ∈ industrialBuildingTags then some (wayPoly w) else none
    | none => none

/-- The `IndustrialLanduseHandler` pass (industrial_buildings.py:99-138):
`landuse=industrial` ways of at least 3 nodes, plus other industrial-ish
landuse ways containing one of the already-found industrial buildings. -/
def industrialLandusePass (polyI : Poly → Poly → Bool)
    (polyCentroid : Poly → ℚ × ℚ) (industrial_buildings : List Poly)
    (ways : List OsmWay) : List Poly :=
  ways.filterMap fun w =>
    match w.tags.lookup "landuse" with
    | none => none
    | some lu =>
        if w.nodes.length < 3 then none
        else if lu = "industrial" then some (wayPoly w)
        else if decide (lu ∈ otherIndustrialLanduseTags) &&
            industrial_buildings.any fun b => buildingIsInWay polyI polyCentroid b w then
          some (wayPoly w)
        else none

/-- The `BuildingsInZonesHandler` pass (industrial_buildings.py:54-85): ways
with any `building` tag lying in one of the landuse zones. -/
def buildingsInZonesPass (polyI : Poly → Poly → Bool) (zones : List Poly)
    (ways : List OsmWay) : List Poly :=
  ways.filterMap fun w =>
    if (w.tags.lookup "building").isSome &&
        zones.any fun z => wayIsInZone polyI w z then
      some (wayPoly w)
    else none

/-- The geometry yielded by `IndustrialBuildings.__getitem__`: the raw
EPSG:4326 polygon, or a polygon reprojected by the pyproj transformer tagged
with its source and target systems. -/
inductive OutGeom where
  | raw (p : Poly)
  | reproj (src tgt : ℤ) (p : Poly)
deriving DecidableEq, Repr

/-- The coordinate reference system an output geometry is expressed in (OSM
source data is EPSG:4326). -/
def OutGeom.crsOf : OutGeom → ℤ
  | .raw _ => 4326
  | .reproj _ tgt _ => tgt

/-- The state of an `IndustrialBuildings` collection
(industrial_buildings.py:12-39). -/
structure IndustrialBuildings where
  filename : String
  bounds : Option Box
  industrial_buildings : List Poly
  transform : Option (ℤ × ℤ)

/-- `IndustrialBuildings.__init__` (industrial_buildings.py:14-30):
`fileWays` models the OSM file found at `filename`; the three handler passes
collect the buildings; `bounds` is stored and never consulted; when `crs` is
truthy a pyproj transformer from EPSG:4326 to EPSG:3035 is created — the crs
argument's value is not consulted beyond its truthiness. -/
def IndustrialBuildings.init (polyI : Poly → Poly → Bool)
    (polyCentroid : Poly → ℚ × ℚ) (fileWays : List OsmWay) (filename : String)
    (bounds : Option Box) (crs : Option ℤ) : IndustrialBuildings :=
  { filename := filename
    bounds := bounds
    industrial_buildings :=
      industrialBuildingsPass fileWays ++
        buildingsInZonesPass polyI
          (industrialLandusePass polyI polyCentroid
            (industrialBuildingsPass fileWays) fileWays)
          fileWays
    transform := if crs.isSome then some (4326, 3035) else none }

/-- `IndustrialBuildings.__getitem__` (industrial_buildings.py:32-36). -/
def IndustrialBuildings.getItem (ib : IndustrialBuildings) (i : ℕ) :
    Option OutGeom :=
  (ib.industrial_buildings.get? i).map fun b =>
    match ib.transform with
    | none => .raw b
    | some (s, t) => .reproj s t b

/-- The cursor positions visited by the split loop are exactly
`lo + i * step` for natural `i`, as long as they are below `hi`. -/
theorem mem_positionsFrom {lo hi step x : ℚ} (hstep : 0 < step) :
    x ∈ positionsFrom lo hi step ↔ ∃ i : ℕ, x = lo + i * step ∧ x < hi := by
  rw [positionsFrom]
  by_cases hlt : lo < hi
  · rw [dif_pos ⟨hstep, hlt⟩, List.mem_cons, mem_positionsFrom hstep]
    constructor
    · rintro (rfl | ⟨i, rfl, hx⟩)
      · exact ⟨0, by push_cast; ring, hlt⟩
      · exact ⟨i + 1, by push_cast; ring, hx⟩
    · rintro ⟨i, rfl, hx⟩
      match i with
      | 0 => left; push_cast; ring
      | Nat.succ n => right; exact ⟨n, by push_cast; ring, hx⟩
  · rw [dif_neg fun hc => hlt hc.2]
    simp only [List.not_mem_nil, false_iff, not_exists]
    rintro i ⟨rfl, hx⟩
    have h0 : (0:ℚ) ≤ (i:ℚ) * step := mul_nonneg (Nat.cast_nonneg i) hstep.le
    linarith [not_lt.mp hlt]
termination_by ⌈(hi - lo) / step⌉₊
decreasing_by
  have hs : (0:ℚ) < step := hstep
  have hl : lo < hi := hlt
  have hpos : 0 < ⌈(hi - lo) / step⌉₊ := by
    rw [Nat.ceil_pos]
    exact div_pos (by linarith) hs
  have key : (hi - (lo + step)) / step ≤ (⌈(hi - lo) / step⌉₊ : ℚ) - 1 := by
    have h1 : (hi - (lo + step)) / step = (hi - lo) / step - 1 := by
      field_simp
      ring
    rw [h1]
    linarith [Nat.le_ceil ((hi - lo) / step)]
  have hle : ⌈(hi - (lo + step)) / step⌉₊ ≤ ⌈(hi - lo) / step⌉₊ - 1 := by
    apply Nat.ceil_le.mpr
    rw [Nat.cast_sub hpos]
    simpa using key
  omega

/-- One-dimensional coverage: the centre of cell `k` (cells of width `cs`
starting at `b0`) falls inside the valid interval of the tile whose cursor is
at `b0 + (k / m) * (m * cs)`, whenever the tile size is `m` cells. -/
theorem coverage1D (b0 b2 cs : ℚ) (m k : ℕ) (hcs : 0 < cs) (hm : 0 < m)
    (hk : b0 + cs / 2 + k * cs < b2) :
    ∃ x ∈ positionsFrom b0 b2 ((m : ℚ) * cs),
      x + cs / 2 ≤ b0 + cs / 2 + k * cs ∧
        b0 + cs / 2 + k * cs ≤ x + (m : ℚ) * cs - cs / 2 := by
  have hss : (0:ℚ) < (m : ℚ) * cs :=
    mul_pos (by exact_mod_cast hm) hcs
  have h1 : ((k / m : ℕ) : ℚ) * ((m : ℚ) * cs) ≤ (k : ℚ) * cs := by
    have hn : ((k / m * m : ℕ) : ℚ) ≤ (k : ℚ) := by
      exact_mod_cast Nat.div_mul_le_self k m
    calc ((k / m : ℕ) : ℚ) * ((m : ℚ) * cs) = ((k / m * m : ℕ) : ℚ) * cs := by
          push_cast; ring
      _ ≤ (k : ℚ) * cs := mul_le_mul_of_nonneg_right hn hcs.le
  have h2 : ((k : ℚ) + 1) * cs ≤ (((k / m : ℕ) : ℚ) * m + m) * cs := by
    have hnat : k + 1 ≤ k / m * m + m := by
      nlinarith [Nat.div_add_mod k m, Nat.mod_lt k hm]
    have hq : (k : ℚ) + 1 ≤ ((k / m : ℕ) : ℚ) * m + m := by exact_mod_cast hnat
    exact mul_le_mul_of_nonneg_right hq hcs.le
  refine ⟨b0 + ((k / m : ℕ) : ℚ) * ((m : ℚ) * cs), ?_, ?_, ?_⟩
  · rw [mem_positionsFrom hss]
    exact ⟨k / m, rfl, by linarith⟩
  · linarith
  · nlinarith [h2]

/-- One-dimensional disjointness: a point lying in the valid intervals of two
split cursor positions forces those cursor positions to coincide. -/
theorem disjoint1D {b0 b2 ss cs x x' px : ℚ} (hss : 0 < ss) (hcs : 0 < cs)
    (hx : x ∈ positionsFrom b0 b2 ss) (hx' : x' ∈ positionsFrom b0 b2 ss)
    (h1 : x + cs / 2 ≤ px) (h2 : px ≤ x + ss - cs / 2)
    (h1' : x' + cs / 2 ≤ px) (h2' : px ≤ x' + ss - cs / 2) : x = x' := by
  rw [mem_positionsFrom hss] at hx hx'
  obtain ⟨n, rfl, -⟩ := hx
  obtain ⟨n', rfl, -⟩ := hx'
  rcases lt_trichotomy n n' with h | h | h
  · exfalso
    have hq : (n : ℚ) + 1 ≤ (n' : ℚ) := by exact_mod_cast h
    nlinarith [mul_nonneg (by linarith : (0:ℚ) ≤ (n' : ℚ) - n - 1) hss.le]
  · rw [h]
  · exfalso
    have hq : (n' : ℚ) + 1 ≤ (n : ℚ) := by exact_mod_cast h
    nlinarith [mul_nonneg (by linarith : (0:ℚ) ≤ (n : ℚ) - n' - 1) hss.le]

/-- C1 (counterexample to the claim as stated): with bounding box
`(0,0,2,2)`, tile size 2, buffer 0 and cell size 1, `split` produces a single
descriptor whose `validRegion` is `(1/2, 1/2, 3/2, 3/2)`; the corner `(0,0)`
of the bounding box is covered by no `validRegion`, so the union of the
`validRegion` boxes does not cover the bounding box. -/
theorem C1_counterexample :
    inBox (0, 0, 2, 2) (0, 0) ∧
    split (0, 0, 2, 2) 2 0 [] "" 1 =
      [{ valid_region := (1/2, 1/2, 3/2, 3/2),
         full_extent := (1/2, 1/2, 3/2, 3/2),
         valid_nuts := [], grid_path := "" }] ∧
    ¬ inBox (1/2, 1/2, 3/2, 3/2) (0, 0) := by
  refine ⟨⟨le_refl 0, by norm_num, le_refl 0, by norm_num⟩, ?_, ?_⟩
  · have h1 : positionsFrom (0:ℚ) 2 2 = [0] := by
      rw [positionsFrom, dif_pos (by norm_num : (0:ℚ) < 2 ∧ (0:ℚ) < 2)]
      rw [positionsFrom, dif_neg (by norm_num)]
    simp only [split, h1]
    norm_num
  · intro h
    have := h.1
    norm_num at this

/-- C1 (amended): for a positive cell size, a tile size that is a positive
multiple `m` of the cell size, and a nonnegative buffer, the `validRegion`s
of the descriptors generated by `GridDataset.split` tile the bounding box at
cell-centre granularity: every cell centre inside the bounding box lies in at
least one `validRegion`; no point at all lies in two distinct `validRegion`s;
and every descriptor's `fullExtent` contains its `validRegion`. -/
theorem C1_valid_regions_partition_cell_centers
    (b0 b1 b2 b3 buffer_size cell_size : ℚ) (m : ℕ)
    (nuts : List String) (path : String)
    (hcs : 0 < cell_size) (hm : 0 < m) (hbuf : 0 ≤ buffer_size) :
    (∀ i j : ℕ,
        b0 + cell_size / 2 + i * cell_size < b2 →
        b1 + cell_size / 2 + j * cell_size < b3 →
        ∃ sg ∈ split (b0, b1, b2, b3) ((m : ℚ) * cell_size) buffer_size nuts path cell_size,
          inBox sg.valid_region
            (b0 + cell_size / 2 + i * cell_size, b1 + cell_size / 2 + j * cell_size)) ∧
    (∀ p : ℚ × ℚ,
        ∀ sg ∈ split (b0, b1, b2, b3) ((m : ℚ) * cell_size) buffer_size nuts path cell_size,
        ∀ sg' ∈ split (b0, b1, b2, b3) ((m : ℚ) * cell_size) buffer_size nuts path cell_size,
          inBox sg.valid_region p → inBox sg'.valid_region p → sg = sg') ∧
    (∀ sg ∈ split (b0, b1, b2, b3) ((m : ℚ) * cell_size) buffer_size nuts path cell_size,
        ∀ p : ℚ × ℚ, inBox sg.valid_region p → inBox sg.full_extent p) := by
  have hss : (0:ℚ) < (m : ℚ) * cell_size :=
    mul_pos (by exact_mod_cast hm) hcs
  refine ⟨?_, ?_, ?_⟩
  · intro i j hi hj
    obtain ⟨x, hxmem, hx1, hx2⟩ := coverage1D b0 b2 cell_size m i hcs hm hi
    obtain ⟨y, hymem, hy1, hy2⟩ := coverage1D b1 b3 cell_size m j hcs hm hj
    refine ⟨_, List.mem_flatMap.mpr ⟨x, hxmem, List.mem_map.mpr ⟨y, hymem, rfl⟩⟩, ?_⟩
    exact ⟨hx1, hx2, hy1, hy2⟩
  · intro p sg hsg sg' hsg' hp hp'
    obtain ⟨x, hx, hmap⟩ := List.mem_flatMap.mp hsg
    obtain ⟨y, hy, rfl⟩ := List.mem_map.mp hmap
    obtain ⟨x', hx', hmap'⟩ := List.mem_flatMap.mp hsg'
    obtain ⟨y', hy', rfl⟩ := List.mem_map.mp hmap'
    obtain ⟨ha1, ha2, ha3, ha4⟩ := hp
    obtain ⟨hb1, hb2, hb3, hb4⟩ := hp'
    have hxe : x = x' := disjoint1D hss hcs hx hx' ha1 ha2 hb1 hb2
    have hye : y = y' := disjoint1D hss hcs hy hy' ha3 ha4 hb3 hb4
    rw [hxe, hye]
  · intro sg hsg p hp
    obtain ⟨x, hx, hmap⟩ := List.mem_flatMap.mp hsg
    obtain ⟨y, hy, rfl⟩ := List.mem_map.mp hmap
    obtain ⟨h1, h2, h3, h4⟩ := hp
    exact ⟨by linarith, by linarith, by linarith, by linarith⟩

/-- C1 witness: the amended theorem applied at a concrete tiling. -/
theorem C1_witness :
    (0 : ℚ) < 1 ∧ 0 < 2 ∧ (0 : ℚ) ≤ 3 ∧
    (∀ i j : ℕ,
        (0:ℚ) + 1 / 2 + i * 1 < 4 →
        (0:ℚ) + 1 / 2 + j * 1 < 4 →
        ∃ sg ∈ split (0, 0, 4, 4) ((2 : ℕ) * (1:ℚ)) 3 [] "g" 1,
          inBox sg.valid_region ((0:ℚ) + 1 / 2 + i * 1, (0:ℚ) + 1 / 2 + j * 1)) :=
  ⟨by norm_num, by norm_num, by norm_num,
    (C1_valid_regions_partition_cell_centers 0 0 4 4 3 1 2 [] "g"
      (by norm_num) (by norm_num) (by norm_num)).1⟩

/-- C5 (counterexample to the claim as stated): a row whose geometry lies
inside the descriptor's `fullExtent` (and matches the empty allow-list) but
outside its `validRegion` does not make the descriptor materialize:
`_make_sub_grid_obj` queries the collection with `bbox=valid_region`, not
`bbox=full_extent`, and returns `None` here. -/
theorem C5_counterexample :
    boxIntersects (1, 1, 2, 2) (0, 0, 30, 30) = true ∧
    nutsMatch [] { geometry := (1, 1, 2, 2), nuts_0_id := "A", nuts_1_id := "A",
                   nuts_2_id := "A", nuts_3_id := "A" } = true ∧
    makeSubGridObj
      [{ geometry := (1, 1, 2, 2), nuts_0_id := "A", nuts_1_id := "A",
         nuts_2_id := "A", nuts_3_id := "A" }]
      { valid_region := (10, 10, 20, 20), full_extent := (0, 0, 30, 30),
        valid_nuts := [], grid_path := "g" } = none := by
  refine ⟨by decide, rfl, by decide⟩

/-- C5 (amended): a tile descriptor materializes into a prepared sub-grid
exactly when at least one source row intersecting its `validRegion` (not its
`fullExtent`) matches the optional NUTS allow-list; the materialized value is
`prepare_subgrid` of the descriptor. -/
theorem C5_materialize_iff_valid_region_row (coll : List FRow) (sg : SubGrid) :
    ((makeSubGridObj coll sg).isSome = true ↔
      ∃ r ∈ coll, boxIntersects r.geometry sg.valid_region = true ∧
        nutsMatch sg.valid_nuts r = true) ∧
    (∀ g, makeSubGridObj coll sg = some g → g = prepareSubgrid sg) := by
  constructor
  · unfold makeSubGridObj
    rcases hfind : (coll.filter fun r => boxIntersects r.geometry sg.valid_region).find?
        (fun r => nutsMatch sg.valid_nuts r) with _ | r
    · rw [hfind]
      simp only [Option.isSome_none, Bool.false_eq_true, false_iff, not_exists]
      rintro r ⟨hr, hbox, hnuts⟩
      have hmem : r ∈ coll.filter fun r => boxIntersects r.geometry sg.valid_region :=
        List.mem_filter.mpr ⟨hr, hbox⟩
      have := List.find?_isSome.mpr ⟨r, hmem, hnuts⟩
      rw [hfind] at this
      simp at this
    · rw [hfind]
      simp only [Option.isSome_some, true_iff]
      have hsome : ((coll.filter fun r => boxIntersects r.geometry sg.valid_region).find?
          (fun r => nutsMatch sg.valid_nuts r)).isSome := by rw [hfind]; rfl
      obtain ⟨r', hr', hn'⟩ := List.find?_isSome.mp hsome
      obtain ⟨hmem, hbox⟩ := List.mem_filter.mp hr'
      exact ⟨r', hmem, hbox, hn'⟩
  · intro g hg
    unfold makeSubGridObj at hg
    rcases hfind : (coll.filter fun r => boxIntersects r.geometry sg.valid_region).find?
        (fun r => nutsMatch sg.valid_nuts r) with _ | r
    · rw [hfind] at hg
      simp at hg
    · rw [hfind] at hg
      exact (Option.some_injective _ hg).symm

/-- C5 witness: the amended theorem evaluated at a concrete collection and
descriptor whose valid region does contain a matching row. -/
theorem C5_witness :
    ((makeSubGridObj
        [{ geometry := (11, 11, 12, 12), nuts_0_id := "A", nuts_1_id := "A",
           nuts_2_id := "A", nuts_3_id := "A" }]
        { valid_region := (10, 10, 20, 20), full_extent := (0, 0, 30, 30),
          valid_nuts := [], grid_path := "g" }).isSome = true) ∧
    ({ valid_region := (10, 10, 20, 20), full_extent := (0, 0, 30, 30),
       valid_nuts := [], input_file := "g", complete := false,
       attempts := 0 } : PreparedGrid) =
      prepareSubgrid
        { valid_region := (10, 10, 20, 20), full_extent := (0, 0, 30, 30),
          valid_nuts := [], grid_path := "g" } :=
  ⟨(C5_materialize_iff_valid_region_row
      [{ geometry := (11, 11, 12, 12), nuts_0_id := "A", nuts_1_id := "A",
         nuts_2_id := "A", nuts_3_id := "A" }]
      { valid_region := (10, 10, 20, 20), full_extent := (0, 0, 30, 30),
        valid_nuts := [], grid_path := "g" }).1.mpr
      ⟨_, List.mem_singleton.mpr rfl, by decide, rfl⟩,
    (C5_materialize_iff_valid_region_row
      [{ geometry := (11, 11, 12, 12), nuts_0_id := "A", nuts_1_id := "A",
         nuts_2_id := "A", nuts_3_id := "A" }]
      { valid_region := (10, 10, 20, 20), full_extent := (0, 0, 30, 30),
        valid_nuts := [], grid_path := "g" }).2
      { valid_region := (10, 10, 20, 20), full_extent := (0, 0, 30, 30),
        valid_nuts := [], input_file := "g", complete := false,
        attempts := 0 } (by decide)⟩

/-- `List.lookup` distributes over append as an `Option.or`. -/
theorem lookup_append_or {α : Type} (a b : List (String × α)) (k : String) :
    (a ++ b).lookup k = ((a.lookup k).or (b.lookup k)) := by
  induction a with
  | nil => simp [List.lookup]
  | cons x xs ih =>
    simp only [List.cons_append, List.lookup]
    by_cases h : k == x.1
    · simp [h]
    · simp [h, ih]

/-- Filtering out the keys of `b` does not change a lookup for a key absent
from `b`. -/
theorem lookup_filter_other {α : Type} (a b : List (String × α)) (k : String)
    (hb : b.lookup k = none) :
    ((a.filter fun p => (b.lookup p.1).isNone).lookup k) = a.lookup k := by
  induction a with
  | nil => rfl
  | cons x xs ih =>
    by_cases hk : k == x.1
    · have hx1 : (b.lookup x.1).isNone = true := by
        rw [← eq_of_beq hk, hb]
        rfl
      simp [List.filter, hx1, List.lookup, hk]
    · by_cases hkept : (b.lookup x.1).isNone
      · simp [List.filter, hkept, List.lookup, hk, ih]
      · simp only [Bool.not_eq_true] at hkept
        simp [List.filter, hkept, List.lookup, hk, ih]

/-- After replacing the first `p`-element by a `p`-element, `find?` locates
the replacement. -/
theorem find?_updateFirst (l : List Catchment) (p : Catchment → Bool) (a : Catchment)
    (hpa : p a = true) (h : (l.find? p).isSome = true) :
    (updateFirst l p a).find? p = some a := by
  induction l with
  | nil => simp [List.find?] at h
  | cons x xs ih =>
    by_cases hx : p x
    · simp [updateFirst, hx, List.find?_cons_of_pos _ hpa]
    · rw [List.find?_cons_of_neg _ hx] at h
      have hu : updateFirst (x :: xs) p a = x :: updateFirst xs p a := by
        simp [updateFirst, hx]
      rw [hu, List.find?_cons_of_neg _ hx]
      exact ih h

/-- Replacing the first `p`-element by a `p`-element preserves the number of
`p`-elements. -/
theorem filter_updateFirst_length (l : List Catchment) (p : Catchment → Bool)
    (a : Catchment) (hpa : p a = true) :
    ((updateFirst l p a).filter p).length = (l.filter p).length := by
  induction l with
  | nil => rfl
  | cons x xs ih =>
    by_cases hx : p x
    · simp [updateFirst, hx, List.filter, hpa]
    · simp [updateFirst, hx, List.filter, ih]

/-- C2: applying a second catchment with the name of one the grid already
carries yields a single merged catchment under that name whose cell-ID set is
the union of both catchments' cell sets; the grid's geometry columns are
untouched (no duplicate geometry column), and the applying attribute's
catchment reference is repointed to the merged catchment recorded on the
grid.  (`Catchment.append` / `apply_catchment` are modelled from the spec;
the merge logic itself is `Attribute._apply_catchment_to_grid`.) -/
theorem C2_catchment_merge (c1 c2 : Catchment) (g : AGrid)
    (hfound : g.catchments.find? (fun c => c.catchment_name == c2.catchment_name) = some c1)
    (hcount : (g.catchments.filter fun c => c.catchment_name == c2.catchment_name).length = 1) :
    ((applyCatchmentToGrid c2 g).2.catchments.filter
        (fun c => c.catchment_name == c2.catchment_name)).length = 1 ∧
    (applyCatchmentToGrid c2 g).2.catchments.find?
        (fun c => c.catchment_name == c2.catchment_name) =
      some (applyCatchmentToGrid c2 g).1 ∧
    (∀ id : String,
        ((applyCatchmentToGrid c2 g).1.cells.lookup id).isSome = true ↔
          (c1.cells.lookup id).isSome = true ∨ (c2.cells.lookup id).isSome = true) ∧
    (applyCatchmentToGrid c2 g).2.geom_columns = g.geom_columns := by
  have hname : (c1.catchment_name == c2.catchment_name) = true := by
    have hp := List.find?_some hfound
    simpa using hp
  have hmerged : ((c1.append c2).catchment_name == c2.catchment_name) = true := hname
  simp only [applyCatchmentToGrid, hfound]
  refine ⟨?_, ?_, ?_, trivial⟩
  · rw [filter_updateFirst_length _ _ _ hmerged]
    exact hcount
  · exact find?_updateFirst _ _ _ hmerged (by rw [hfound]; rfl)
  · intro id
    show (((c1.cells.filter fun p => (c2.cells.lookup p.1).isNone) ++
        c2.cells).lookup id).isSome = true ↔ _
    rw [lookup_append_or]
    rcases hb : c2.cells.lookup id with _ | v
    · rw [lookup_filter_other _ _ _ hb]
      cases c1.cells.lookup id <;> simp
    · cases (c1.cells.filter fun p => (c2.cells.lookup p.1).isNone).lookup id <;> simp

/-- C2 witness: the merge theorem evaluated on a concrete grid carrying one
catchment named `"n"` and an incoming catchment of the same name. -/
theorem C2_witness :
    ([({ catchment_name := "n", cells := [("a", Geom.point 0 0)], cols := [],
         aggs := [], atts_to_agg := [] } : Catchment)].find?
      (fun c => c.catchment_name ==
        ({ catchment_name := "n", cells := [("b", Geom.point 1 1)], cols := [],
           aggs := [], atts_to_agg := [] } : Catchment).catchment_name) =
      some { catchment_name := "n", cells := [("a", Geom.point 0 0)], cols := [],
             aggs := [], atts_to_agg := [] }) ∧
    (((applyCatchmentToGrid
        { catchment_name := "n", cells := [("b", Geom.point 1 1)], cols := [],
          aggs := [], atts_to_agg := [] }
        { catchments := [{ catchment_name := "n", cells := [("a", Geom.point 0 0)],
                           cols := [], aggs := [], atts_to_agg := [] }],
          geom_columns := ["n"] }).1.cells.lookup "a").isSome = true ↔
      (([(("a" : String), Geom.point 0 0)].lookup "a").isSome = true ∨
        ([(("b" : String), Geom.point 1 1)].lookup "a").isSome = true)) :=
  ⟨by decide,
    (C2_catchment_merge
      { catchment_name := "n", cells := [("a", Geom.point 0 0)], cols := [],
        aggs := [], atts_to_agg := [] }
      { catchment_name := "n", cells := [("b", Geom.point 1 1)], cols := [],
        aggs := [], atts_to_agg := [] }
      { catchments := [{ catchment_name := "n", cells := [("a", Geom.point 0 0)],
                         cols := [], aggs := [], atts_to_agg := [] }],
        geom_columns := ["n"] }
      (by decide) (by decide)).2.2.1 "a"⟩

/-- `List.contains` on strings agrees with membership. -/
theorem contains_iff_memStr (l : List String) (a : String) :
    l.contains a = true ↔ a ∈ l :=
  List.contains_iff_exists_mem_beq.trans (by simp)

/-- A lookup ignores a key filter that keeps the looked-up key. -/
theorem lookup_filter_of_pred {α : Type} (l : List (String × α)) (q : String → Bool)
    (col : String) (hq : q col = true) :
    ((l.filter fun p => q p.1).lookup col) = l.lookup col := by
  induction l with
  | nil => rfl
  | cons x xs ih =>
    by_cases hk : col == x.1
    · have hx : q x.1 = true := by rw [← eq_of_beq hk]; exact hq
      simp [List.filter, hx, List.lookup, hk]
    · by_cases hkeep : q x.1
      · simp [List.filter, hkeep, List.lookup, hk, ih]
      · simp only [Bool.not_eq_true] at hkeep
        simp [List.filter, hkeep, List.lookup, hk, ih]

/-- A lookup among pairs whose keys all differ from the key yields `none`. -/
theorem lookup_eq_none_of_keys {α : Type} (l : List (String × α)) (k : String)
    (h : ∀ p ∈ l, p.1 ≠ k) : l.lookup k = none := by
  induction l with
  | nil => rfl
  | cons x xs ih =>
    have hx : (k == x.1) = false := by
      by_cases hb : (k == x.1) = true
      · exact absurd (eq_of_beq hb).symm (h x (List.mem_cons_self x xs))
      · simpa using hb
    simp only [List.lookup, hx]
    exact ih fun p hp => h p (List.mem_cons_of_mem x hp)

/-- A successful lookup returns one of the stored values. -/
theorem lookup_mem_snd {α : Type} (l : List (String × α)) (k : String) (v : α)
    (h : l.lookup k = some v) : v ∈ l.map Prod.snd := by
  induction l with
  | nil => simp [List.lookup] at h
  | cons x xs ih =>
    by_cases hk : (k == x.1) = true
    · simp only [List.lookup, hk] at h
      have hv : x.2 = v := by simpa using h
      rw [← hv]
      simp
    · have hk' : (k == x.1) = false := by simpa using hk
      simp only [List.lookup, hk'] at h
      simp only [List.map_cons, List.mem_cons]
      exact Or.inr (ih h)

/-- A key present among the stored keys has a successful lookup. -/
theorem lookup_isSome_of_key {α : Type} (l : List (String × α)) (k : String)
    (h : k ∈ l.map Prod.fst) : (l.lookup k).isSome = true := by
  induction l with
  | nil => simp at h
  | cons x xs ih =>
    by_cases hk : (k == x.1) = true
    · simp [List.lookup, hk]
    · have hk' : (k == x.1) = false := by simpa using hk
      simp only [List.map_cons, List.mem_cons] at h
      rcases h with h | h
      · rw [h] at hk
        simp at hk
      · simp only [List.lookup, hk']
        exact ih h

/-- With matching `cols`/`atts_to_agg` lengths, every renamed aggregation
column name is one of the `atts_to_agg` entries. -/
theorem renameColL_mem (cols atts : List String) (col : String)
    (hlen : cols.length = atts.length) (hcol : col ∈ cols) :
    renameColL cols atts col ∈ atts := by
  unfold renameColL
  rcases hl : ((cols.zip atts).reverse).lookup col with _ | v
  · exfalso
    have hk : col ∈ ((cols.zip atts).reverse).map Prod.fst := by
      rw [List.map_reverse, List.mem_reverse,
        List.map_fst_zip _ _ (le_of_eq hlen)]
      exact hcol
    have hsome := lookup_isSome_of_key _ _ hk
    rw [hl] at hsome
    simp at hsome
  · simp only [Option.getD_some]
    have hv := lookup_mem_snd _ _ _ hl
    rw [List.map_reverse, List.mem_reverse] at hv
    obtain ⟨p, hp, hpv⟩ := List.mem_map.mp hv
    rw [← hpv]
    exact (List.of_mem_zip hp).2

/-- Elements of the first-occurrence dedup come from the original list. -/
theorem mem_dedupFirst {l : List String} {x : String} (h : x ∈ dedupFirst l) :
    x ∈ l := by
  induction l with
  | nil => simpa [dedupFirst] using h
  | cons a as ih =>
    simp only [dedupFirst, List.mem_cons] at h
    rcases h with rfl | h
    · exact List.mem_cons_self _ _
    · exact List.mem_cons_of_mem _ (ih (List.mem_of_mem_filter h))

/-- The aggregated frame's column names lie in `atts_to_agg` when `cols` and
`atts_to_agg` have the same length. -/
theorem aggFrameCols_subset (c : Catchment)
    (hlen : c.cols.length = c.atts_to_agg.length) :
    ∀ n ∈ aggFrameCols c, n ∈ c.atts_to_agg := by
  intro n hn
  unfold aggFrameCols at hn
  obtain ⟨col, hcol, hmem⟩ := List.mem_flatMap.mp hn
  obtain ⟨op, hop, rfl⟩ := List.mem_map.mp hmem
  exact renameColL_mem _ _ _ hlen (mem_dedupFirst hcol)

/-- Every row of the aggregated frame has exactly the aggregated column
names. -/
theorem aggFrame_names (c : Catchment) (d : List GRow) :
    ∀ p ∈ aggFrame c d, p.2.map Prod.fst = aggFrameCols c := by
  intro p hp
  obtain ⟨id, hid, rfl⟩ := List.mem_map.mp hp
  simp only [List.map_flatMap, List.map_map]
  rfl

/-- For a column outside the aggregation targets, `stepVals` preserves the
looked-up value. -/
theorem stepVals_lookup (c : Catchment)
    (F : List (String × List (String × Option ℚ))) (id : String)
    (vals : List (String × Option ℚ)) (col : String)
    (hna : ¬ col ∈ c.atts_to_agg)
    (hFnames : ∀ p ∈ F, p.2.map Prod.fst = aggFrameCols c)
    (hsub : ∀ n ∈ aggFrameCols c, n ∈ c.atts_to_agg) :
    (stepVals c F id vals).lookup col = vals.lookup col := by
  have hcontains : c.atts_to_agg.contains col = false := by
    by_cases hc : c.atts_to_agg.contains col = true
    · exact absurd ((contains_iff_memStr _ _).mp hc) hna
    · simpa using hc
  have hkeep : (fun k => !(c.atts_to_agg.contains k)) col = true := by
    show (!(c.atts_to_agg.contains col)) = true
    rw [hcontains]
    rfl
  unfold stepVals
  rcases hf : F.lookup id with _ | nv
  · rw [lookup_append_or]
    have h2 : (((aggFrameCols c).map fun n => (n, (none : Option ℚ))).lookup col) = none := by
      apply lookup_eq_none_of_keys
      intro p hp hpc
      obtain ⟨n, hn, rfl⟩ := List.mem_map.mp hp
      have hn2 : n = col := hpc
      rw [hn2] at hn
      exact hna (hsub col hn)
    rw [h2, Option.or_none]
    exact lookup_filter_of_pred vals (fun k => !(c.atts_to_agg.contains k)) col hkeep
  · rw [lookup_append_or]
    have hnv : nv.map Prod.fst = aggFrameCols c := by
      have hmem := lookup_mem_snd _ _ _ hf
      obtain ⟨p, hp, hsnd⟩ := List.mem_map.mp hmem
      rw [← hsnd]
      exact hFnames p hp
    have h2 : nv.lookup col = none := by
      apply lookup_eq_none_of_keys
      intro p hp hpc
      have : p.1 ∈ aggFrameCols c := by
        rw [← hnv]
        exact List.mem_map_of_mem Prod.fst hp
      rw [hpc] at this
      exact hna (hsub col this)
    rw [h2, Option.or_none]
    exact lookup_filter_of_pred vals (fun k => !(c.atts_to_agg.contains k)) col hkeep

/-- `stepVals` is idempotent: a second drop-and-merge removes exactly the
columns the first one appended and re-appends them. -/
theorem stepVals_idem (c : Catchment)
    (F : List (String × List (String × Option ℚ))) (id : String)
    (vals : List (String × Option ℚ))
    (hFnames : ∀ p ∈ F, p.2.map Prod.fst = aggFrameCols c)
    (hsub : ∀ n ∈ aggFrameCols c, n ∈ c.atts_to_agg) :
    stepVals c F id (stepVals c F id vals) = stepVals c F id vals := by
  have hfilnew : ∀ nv : List (String × Option ℚ), nv.map Prod.fst = aggFrameCols c →
      nv.filter (fun p => !(c.atts_to_agg.contains p.1)) = [] := by
    intro nv hnv
    apply List.filter_eq_nil_iff.mpr
    intro p hp
    have hmem : p.1 ∈ aggFrameCols c := by
      rw [← hnv]
      exact List.mem_map_of_mem Prod.fst hp
    simpa using hsub p.1 hmem
  have hfilfil : (vals.filter fun p => !(c.atts_to_agg.contains p.1)).filter
      (fun p => !(c.atts_to_agg.contains p.1)) =
        vals.filter fun p => !(c.atts_to_agg.contains p.1) := by
    rw [List.filter_filter]
    simp
  unfold stepVals
  rcases hf : F.lookup id with _ | nv
  · have hnulls : ((aggFrameCols c).map fun n => (n, (none : Option ℚ))).map Prod.fst =
        aggFrameCols c := by
      rw [List.map_map]
      exact (List.map_congr_left fun a _ => rfl).trans (List.map_id _)
    rw [List.filter_append, hfilfil, hfilnew _ hnulls, List.append_nil]
  · have hnv : nv.map Prod.fst = aggFrameCols c := by
      have hmem := lookup_mem_snd _ _ _ hf
      obtain ⟨p, hp, hsnd⟩ := List.mem_map.mp hmem
      rw [← hsnd]
      exact hFnames p hp
    rw [List.filter_append, hfilfil, hfilnew _ hnv, List.append_nil]

/-- Pointwise-equal functions give equal flat maps. -/
theorem flatMap_congr_mem {α β : Type} (l : List α) (f g : α → List β)
    (h : ∀ a ∈ l, f a = g a) : l.flatMap f = l.flatMap g := by
  induction l with
  | nil => rfl
  | cons x xs ih =>
    rw [List.flatMap_cons, List.flatMap_cons, h x (List.mem_cons_self x xs),
      ih fun a ha => h a (List.mem_cons_of_mem x ha)]

/-- The catchment frame reads only fields `stepRow` preserves, so a
drop-and-merge pass over the data does not change it. -/
theorem catchRows_map_stepRow (c c' : Catchment)
    (F : List (String × List (String × Option ℚ))) (d : List GRow) :
    catchRows c' (d.map (stepRow c F)) = catchRows c' d := by
  unfold catchRows
  rw [List.filter_map, List.filterMap_map]
  rfl

/-- The spatial join of a drop-and-merged tile matches the same source rows,
each passed through the drop-and-merge. -/
theorem matchedRows_map_stepRow (c c' : Catchment)
    (F : List (String × List (String × Option ℚ))) (d : List GRow) (id : String) :
    matchedRows c' (d.map (stepRow c F)) id = (matchedRows c' d id).map (stepRow c F) := by
  unfold matchedRows
  rw [catchRows_map_stepRow, List.map_flatMap]
  have hfn : (fun g : Geom => (d.map (stepRow c F)).filter fun r => g.containsPoint r.centroid)
      = fun g : Geom => (d.filter fun r => g.containsPoint r.centroid).map (stepRow c F) := by
    funext g
    rw [List.filter_map]
    rfl
  rw [hfn]

/-- A source column outside the aggregation targets has the same values
before and after a drop-and-merge pass. -/
theorem colVals_map_stepRow (c : Catchment)
    (F : List (String × List (String × Option ℚ))) (rows : List GRow) (col : String)
    (hna : ¬ col ∈ c.atts_to_agg)
    (hFnames : ∀ p ∈ F, p.2.map Prod.fst = aggFrameCols c)
    (hsub : ∀ n ∈ aggFrameCols c, n ∈ c.atts_to_agg) :
    colVals col (rows.map (stepRow c F)) = colVals col rows := by
  unfold colVals
  rw [List.filterMap_map]
  apply List.filterMap_congr
  intro r _
  show ((stepVals c F r.grd_id r.vals).lookup col).join = (r.vals.lookup col).join
  rw [stepVals_lookup c F r.grd_id r.vals col hna hFnames hsub]

/-- The spatial-join group keys are unchanged by a drop-and-merge pass. -/
theorem groupIds_map_stepRow (c c' : Catchment)
    (F : List (String × List (String × Option ℚ))) (d : List GRow) :
    groupIds c' (d.map (stepRow c F)) = groupIds c' d := by
  unfold groupIds
  rw [catchRows_map_stepRow]
  apply List.filter_congr
  intro id _
  rw [matchedRows_map_stepRow]
  cases matchedRows c' d id <;> rfl

/-- The aggregated frame is unchanged by its own drop-and-merge pass, as long
as the source columns are disjoint from the aggregation target names. -/
theorem aggFrame_map_stepRow (c : Catchment)
    (F : List (String × List (String × Option ℚ))) (d : List GRow)
    (hdisj : ∀ col ∈ c.cols, ¬ col ∈ c.atts_to_agg)
    (hlen : c.cols.length = c.atts_to_agg.length)
    (hFnames : ∀ p ∈ F, p.2.map Prod.fst = aggFrameCols c) :
    aggFrame c (d.map (stepRow c F)) = aggFrame c d := by
  have hsub := aggFrameCols_subset c hlen
  unfold aggFrame
  rw [groupIds_map_stepRow]
  apply List.map_congr_left
  intro id _
  congr 1
  apply flatMap_congr_mem
  intro col hcol
  rw [matchedRows_map_stepRow,
    colVals_map_stepRow c F _ col (hdisj col (mem_dedupFirst hcol))
      hFnames hsub]

/-- C3 (counterexample to the claim as stated): for the
`IndustrialFootprintInCatchment.apply_to` aggregation path the claim fails —
its merge has no preceding drop, so re-running the aggregation on a grid
whose footprint column is already present does not recompute that column: the
colliding columns are duplicated under the pandas suffixes `_x`/`_y` and the
original target name disappears. -/
theorem C3_counterexample :
    ((ificApplyTo "c" [Geom.rect 0 0 4 4] [Geom.rect 2 2 3 3]
        [{ grd_id := "1", geoms := [("geometry", Geom.rect 0 0 2 2)], vals := [] }]).map
      fun r => r.vals.lookup "industrial_footprint_c") = [some 1] ∧
    ((ificApplyTo "c" [Geom.rect 0 0 4 4] [Geom.rect 2 2 3 3]
        (ificApplyTo "c" [Geom.rect 0 0 4 4] [Geom.rect 2 2 3 3]
          [{ grd_id := "1", geoms := [("geometry", Geom.rect 0 0 2 2)], vals := [] }])).map
      fun r => (r.vals.lookup "industrial_footprint_c",
        r.vals.lookup "industrial_footprint_c_x",
        r.vals.lookup "industrial_footprint_c_y")) = [(none, some 1, some 1)] := by
  constructor
  · norm_num [ificApplyTo, setCol, geomIntersection, geomArea, sumCols,
      mergeInnerSuffix, dedupFirst, List.lookup, List.filterMap, List.flatMap]
    decide
  · norm_num [ificApplyTo, setCol, geomIntersection, geomArea, sumCols,
      mergeInnerSuffix, dedupFirst, List.lookup, List.filterMap, List.flatMap]
    decide

/-- C3 (amended): re-running `GridDataset.compute_for_catchment` on a tile
whose target attribute columns are already present yields the same rows and
values: the pre-existing target columns are dropped and recomputed, not
additively merged and not duplicated, provided the catchment's source columns
are disjoint from its target column names and the `cols` / `atts_to_agg`
lists have equal length.  (The `IndustrialFootprintInCatchment.apply_to`
aggregation path does NOT satisfy the original claim; see the
counterexample.) -/
theorem C3_compute_for_catchment_idempotent (c : Catchment) (d : List GRow)
    (hdisj : ∀ col ∈ c.cols, ¬ col ∈ c.atts_to_agg)
    (hlen : c.cols.length = c.atts_to_agg.length) :
    computeForCatchment c (computeForCatchment c d) = computeForCatchment c d := by
  have hsub := aggFrameCols_subset c hlen
  have hFnames := aggFrame_names c d
  unfold computeForCatchment
  rw [aggFrame_map_stepRow c (aggFrame c d) d hdisj hlen hFnames, List.map_map]
  apply List.map_congr_left
  intro r _
  exact congrArg (fun v => { r with vals := v })
    (stepVals_idem c (aggFrame c d) r.grd_id r.vals hFnames hsub)

/-- C3 witness: idempotence evaluated at a concrete one-cell tile with one
source column aggregated by sum. -/
theorem C3_witness :
    (∀ col ∈ ["v"], ¬ col ∈ ["v_c"]) ∧
    computeForCatchment
        { catchment_name := "c", cells := [], cols := ["v"], aggs := [.opSum],
          atts_to_agg := ["v_c"] }
        (computeForCatchment
          { catchment_name := "c", cells := [], cols := ["v"], aggs := [.opSum],
            atts_to_agg := ["v_c"] }
          [{ grd_id := "1", valid := true, centroid := (0, 0),
             geoms := [("c", Geom.rect 0 0 4 4)], vals := [("v", some 2)] }]) =
      computeForCatchment
        { catchment_name := "c", cells := [], cols := ["v"], aggs := [.opSum],
          atts_to_agg := ["v_c"] }
        [{ grd_id := "1", valid := true, centroid := (0, 0),
           geoms := [("c", Geom.rect 0 0 4 4)], vals := [("v", some 2)] }] :=
  ⟨by decide,
    C3_compute_for_catchment_idempotent
      { catchment_name := "c", cells := [], cols := ["v"], aggs := [.opSum],
        atts_to_agg := ["v_c"] }
      [{ grd_id := "1", valid := true, centroid := (0, 0),
         geoms := [("c", Geom.rect 0 0 4 4)], vals := [("v", some 2)] }]
      (by decide) rfl⟩

/-- First-occurrence dedup of a duplicate-free list is the list itself. -/
theorem dedupFirst_eq_self {l : List String} (h : l.Nodup) : dedupFirst l = l := by
  induction l with
  | nil => rfl
  | cons x xs ih =>
    obtain ⟨hx, hxs⟩ := List.nodup_cons.mp h
    unfold dedupFirst
    rw [ih hxs, List.filter_eq_self.mpr]
    intro b hb
    simp only [bne_iff_ne, ne_eq]
    intro hbx
    rw [hbx] at hb
    exact hx hb

/-- A column absent from `cols` is bound to no operator. -/
theorem opsForL_eq_nil (cols : List String) (aggs : List AggOp) (col : String)
    (h : ¬ col ∈ cols) : opsForL cols aggs col = [] := by
  induction cols generalizing aggs with
  | nil => rfl
  | cons c0 cs ih =>
    cases aggs with
    | nil => rfl
    | cons a0 as =>
      unfold opsForL
      rw [List.zip_cons_cons, List.filterMap_cons]
      have hne : (c0 = col) = False := by
        simp only [eq_iff_iff, iff_false]
        intro he
        exact h (he ▸ List.mem_cons_self c0 cs)
      simp only [hne, if_false]
      exact ih as fun hc => h (List.mem_cons_of_mem c0 hc)

/-- A column absent from `cols` is absent from the reversed rename dict. -/
theorem lookup_revzip_none (cols atts : List String) (col : String)
    (h : ¬ col ∈ cols) : ((cols.zip atts).reverse).lookup col = none := by
  induction cols generalizing atts with
  | nil => rfl
  | cons c0 cs ih =>
    cases atts with
    | nil => rfl
    | cons t0 ts =>
      rw [List.zip_cons_cons, List.reverse_cons, lookup_append_or]
      have h1 : ((cs.zip ts).reverse).lookup col = none :=
        ih ts fun hc => h (List.mem_cons_of_mem c0 hc)
      have h2 : ([(c0, t0)] : List (String × String)).lookup col = none := by
        apply lookup_eq_none_of_keys
        intro p hp
        rw [List.mem_singleton.mp hp]
        intro he
        exact h (he ▸ List.mem_cons_self c0 cs)
      rw [h1, h2]
      rfl

/-- The flat map over the `aggregations` dict, for pairwise-distinct columns,
produces exactly one result column per ordered (column, operator, target)
triple, in order. -/
theorem perPair (cols : List String) (aggs : List AggOp) (atts : List String)
    (g : String → AggOp → Option ℚ)
    (hnd : cols.Nodup) (h1 : cols.length = aggs.length)
    (h2 : cols.length = atts.length) :
    (cols.flatMap fun col =>
        (opsForL cols aggs col).map fun op => (renameColL cols atts col, g col op)) =
      ((cols.zip aggs).zip atts).map fun pa => (pa.2, g pa.1.1 pa.1.2) := by
  induction cols generalizing aggs atts with
  | nil => rfl
  | cons c0 cs ih =>
    cases aggs with
    | nil => exact absurd h1 (by simp)
    | cons a0 as =>
      cases atts with
      | nil => exact absurd h2 (by simp)
      | cons t0 ts =>
        obtain ⟨hc0, hcs⟩ := List.nodup_cons.mp hnd
        have hops0 : opsForL (c0 :: cs) (a0 :: as) c0 = [a0] := by
          unfold opsForL
          rw [List.zip_cons_cons, List.filterMap_cons]
          rw [if_pos (rfl : (c0, a0).1 = c0)]
          show a0 :: ((cs.zip as).filterMap fun p => if p.1 = c0 then some p.2 else none) = [a0]
          rw [show ((cs.zip as).filterMap fun p => if p.1 = c0 then some p.2 else none) =
              opsForL cs as c0 from rfl, opsForL_eq_nil cs as c0 hc0]
        have hren0 : renameColL (c0 :: cs) (t0 :: ts) c0 = t0 := by
          unfold renameColL
          rw [List.zip_cons_cons, List.reverse_cons, lookup_append_or,
            lookup_revzip_none cs ts c0 hc0]
          simp [List.lookup]
        have hopsTail : ∀ col ∈ cs,
            opsForL (c0 :: cs) (a0 :: as) col = opsForL cs as col := by
          intro col hcol
          unfold opsForL
          rw [List.zip_cons_cons, List.filterMap_cons]
          have hne : (c0 = col) = False := by
            simp only [eq_iff_iff, iff_false]
            intro he
            rw [he] at hc0
            exact hc0 hcol
          simp only [hne, if_false]
        have hrenTail : ∀ col ∈ cs,
            renameColL (c0 :: cs) (t0 :: ts) col = renameColL cs ts col := by
          intro col hcol
          unfold renameColL
          rw [List.zip_cons_cons, List.reverse_cons, lookup_append_or]
          have h2' : ([(c0, t0)] : List (String × String)).lookup col = none := by
            apply lookup_eq_none_of_keys
            intro p hp
            rw [List.mem_singleton.mp hp]
            intro he
            have he2 : c0 = col := he
            rw [he2] at hc0
            exact hc0 hcol
          rw [h2', Option.or_none]
        have htail :
            (cs.flatMap fun col =>
                (opsForL (c0 :: cs) (a0 :: as) col).map fun op =>
                  (renameColL (c0 :: cs) (t0 :: ts) col, g col op)) =
              ((cs.zip as).zip ts).map fun pa => (pa.2, g pa.1.1 pa.1.2) := by
          rw [flatMap_congr_mem cs
              (fun col => (opsForL (c0 :: cs) (a0 :: as) col).map fun op =>
                (renameColL (c0 :: cs) (t0 :: ts) col, g col op))
              (fun col => (opsForL cs as col).map fun op =>
                (renameColL cs ts col, g col op))
              (fun col hcol => by simp only [hopsTail col hcol, hrenTail col hcol])]
          exact ih as ts hcs (by simpa using h1) (by simpa using h2)
        rw [List.flatMap_cons, hops0]
        simp only [List.map_cons, List.map_nil]
        rw [hren0, htail, List.zip_cons_cons, List.zip_cons_cons, List.map_cons]
        rfl

/-- C4 (amended): when the catchment's source columns are pairwise distinct
(and the `cols`/`aggs`/`atts_to_agg` lists have matching lengths), the
aggregation applies operator *i* to column *i* and produces, for every
(column, operator) pair, its own result column named by the pair's
`atts_to_agg` entry — the aggregated frame coincides with the per-pair
specification frame.  (With a repeated source column the rename dict
collapses the names and earlier pairs' columns are lost; see the
counterexample.) -/
theorem C4_per_pair_aggregation (c : Catchment) (d : List GRow)
    (hnd : c.cols.Nodup) (h1 : c.cols.length = c.aggs.length)
    (h2 : c.cols.length = c.atts_to_agg.length) :
    aggFrame c d = aggFrameSpec c d := by
  unfold aggFrame aggFrameSpec
  apply List.map_congr_left
  intro id _
  congr 1
  rw [dedupFirst_eq_self hnd]
  exact perPair c.cols c.aggs c.atts_to_agg
    (fun col op => op.eval (colVals col (matchedRows c d id))) hnd h1 h2

/-- C4 witness: the amended theorem at a concrete catchment with distinct
source columns. -/
theorem C4_witness :
    (["A", "B"] : List String).Nodup ∧
    aggFrame
        { catchment_name := "c", cells := [], cols := ["A", "B"],
          aggs := [.opSum, .opMax], atts_to_agg := ["n1", "n2"] } [] =
      aggFrameSpec
        { catchment_name := "c", cells := [], cols := ["A", "B"],
          aggs := [.opSum, .opMax], atts_to_agg := ["n1", "n2"] } [] :=
  ⟨by decide,
    C4_per_pair_aggregation
      { catchment_name := "c", cells := [], cols := ["A", "B"],
        aggs := [.opSum, .opMax], atts_to_agg := ["n1", "n2"] } []
      (by decide) rfl rfl⟩

/-- C4 (counterexample to the claim as stated): with the same source column
`"A"` bound to two operators and target names `"n1"`, `"n2"`, the rename via
`dict(zip(cols, atts_to_agg))` maps both duplicate columns to the last name:
both result columns are called `"n2"` and the pair (`"A"`, sum) loses its own
column `"n1"` — the aggregated frame differs from the per-pair
specification frame. -/
theorem C4_counterexample :
    aggFrame
        { catchment_name := "c", cells := [], cols := ["A", "A"],
          aggs := [.opSum, .opMax], atts_to_agg := ["n1", "n2"] }
        [{ grd_id := "1", valid := true, centroid := (1, 1),
           geoms := [("c", Geom.rect 0 0 4 4)], vals := [("A", some 2)] }] =
      [("1", [("n2", some 2), ("n2", some 2)])] ∧
    aggFrameSpec
        { catchment_name := "c", cells := [], cols := ["A", "A"],
          aggs := [.opSum, .opMax], atts_to_agg := ["n1", "n2"] }
        [{ grd_id := "1", valid := true, centroid := (1, 1),
           geoms := [("c", Geom.rect 0 0 4 4)], vals := [("A", some 2)] }] =
      [("1", [("n1", some 2), ("n2", some 2)])] := by
  constructor
  · norm_num [aggFrame, groupIds, dedupFirst, catchRows, matchedRows, colVals,
      opsFor, opsForL, renameCol, renameColL, Geom.containsPoint, Geom.isPoint,
      Geom.bufferPoint, AggOp.eval, List.lookup, List.filterMap, List.flatMap]
  · norm_num [aggFrameSpec, groupIds, dedupFirst, catchRows, matchedRows, colVals,
      Geom.containsPoint, Geom.isPoint, Geom.bufferPoint, AggOp.eval,
      List.lookup, List.filterMap, List.flatMap]

/-- C6: with an empty candidate set, `nearest_neighbor` returns a NaN
placeholder (modelled `none`) and an infinite distance for every source
geometry, for any CRS and any source-set size, and never raises. -/
theorem C6_empty_candidates (left : List SGeom) (crs : ℤ) :
    nearestNeighbor left [] crs =
      .ok (List.replicate left.length none, List.replicate left.length PyFloat.inf) := by
  unfold nearestNeighbor
  rfl

/-- C7 (counterexample to the claim as stated): the index metric is not
great-circle-consistent.  The two degree representations `(0°,90°)` and
`(180°,90°)` of the north pole are at great-circle distance 0, but the
pipeline returns `pi * 6371000` (about 20,015 km): the BallTree is queried
with the default Euclidean metric on radian pairs, not a great-circle
metric. -/
theorem C7_counterexample :
    nearestNeighbor [⟨(0, 90)⟩] [⟨(180, 90)⟩] 4326 =
      .ok ([some ⟨(180, 90)⟩], [PyFloat.val (Real.pi * 6371000)]) ∧
    greatCircleDist 6371000 (0, 90) (180, 90) = 0 ∧
    Real.pi * 6371000 ≠ 0 := by
  refine ⟨?_, ?_, ?_⟩
  · norm_num [nearestNeighbor, getCentroidCoords, getNearest, argminScan,
      euclidDist, List.get?]
    exact Real.sqrt_sq Real.pi_pos.le
  · unfold greatCircleDist
    have h90 : (90 : ℝ) * Real.pi / 180 = Real.pi / 2 := by ring
    have h180 : ((0 : ℝ) - 180) * Real.pi / 180 = -Real.pi := by ring
    rw [h90, h180, Real.sin_pi_div_two, Real.cos_pi_div_two, Real.cos_neg,
      Real.cos_pi]
    norm_num [Real.arccos_one]
  · exact ne_of_gt (mul_pos Real.pi_pos (by norm_num))

/-- C7 (amended): for EPSG:4326 the centroid coordinates are converted from
degrees to radians before indexing; the index is queried with the Euclidean
metric on those radian pairs (great-circle-consistent only in special
configurations such as along the equator); returned distances are multiplied
by the Earth radius 6,371,000 m; and the spec's scenario — source `(0°,0°)`,
candidate `(0°,1°)` — yields `pi/180 * 6371000`, within 1 m of 111,195 m. -/
theorem C7_radians_euclidean_scaling :
    (∀ data : List SGeom,
        getCentroidCoords data 4326 =
          .ok (data.map fun g =>
            (g.centroid.1 * Real.pi / 180, g.centroid.2 * Real.pi / 180))) ∧
    nearestNeighbor [⟨(0, 0)⟩] [⟨(0, 1)⟩] 4326 =
      .ok ([some ⟨(0, 1)⟩], [PyFloat.val (Real.pi / 180 * 6371000)]) ∧
    |Real.pi / 180 * 6371000 - 111195| < 1 := by
  refine ⟨?_, ?_, ?_⟩
  · intro data
    unfold getCentroidCoords
    norm_num
  · norm_num [nearestNeighbor, getCentroidCoords, getNearest, argminScan,
      euclidDist, List.get?]
    exact Real.sqrt_sq (by positivity)
  · have h1 := Real.pi_gt_d6
    have h2 := Real.pi_lt_d6
    rw [abs_lt]
    constructor <;> nlinarith

/-- C8: for any CRS other than 3035 and 4326, centroid extraction raises the
unsupported-CRS error, and so does `nearest_neighbor` whenever it performs
centroid extraction (i.e. for a nonempty candidate set); the error always
propagates to the caller — there is no recovery path. -/
theorem C8_unsupported_crs (crs : ℤ) (h1 : crs ≠ 3035) (h2 : crs ≠ 4326) :
    (∀ data : List SGeom,
        getCentroidCoords data crs =
          .error (toString crs ++ " is an unavailable crs for this operation")) ∧
    (∀ left right : List SGeom, right ≠ [] →
        nearestNeighbor left right crs =
          .error (toString crs ++ " is an unavailable crs for this operation")) := by
  have hg : ∀ data : List SGeom,
      getCentroidCoords data crs =
        .error (toString crs ++ " is an unavailable crs for this operation") := by
    intro data
    unfold getCentroidCoords
    rw [if_neg h1, if_neg h2]
  refine ⟨hg, ?_⟩
  intro left right hr
  unfold nearestNeighbor
  rw [if_neg fun hc => hr (List.length_eq_zero.mp hc)]
  simp only [hg]

/-- C8 witness: the error surfaced at the concrete unsupported CRS 9999. -/
theorem C8_witness :
    ((9999 : ℤ) ≠ 3035) ∧
    nearestNeighbor [] [⟨(0, 0)⟩] 9999 =
      .error (toString (9999 : ℤ) ++ " is an unavailable crs for this operation") :=
  ⟨by decide,
    (C8_unsupported_crs 9999 (by decide) (by decide)).2 [] [⟨(0, 0)⟩] (by simp)⟩

/-- C9 (counterexample to the claim as stated): requesting target CRS
EPSG:27700 still yields a geometry reprojected to EPSG:3035 — the transformer
is hard-coded `from_crs(4326, 3035)` and the crs argument's value is
ignored. -/
theorem C9_counterexample :
    (((IndustrialBuildings.init (fun _ _ => true) (fun _ => (0, 0))
        [{ tags := [("building", "industrial")],
           nodes := [⟨0, 0, true⟩, ⟨10000000, 0, true⟩, ⟨0, 10000000, true⟩] }]
        "f" none (some 27700)).getItem 0).map OutGeom.crsOf) = some 3035 ∧
    ((27700 : ℤ) ≠ 3035) :=
  ⟨rfl, by decide⟩

/-- C9 (amended): whenever a CRS argument is supplied (truthy), every
geometry yielded by indexing an `IndustrialBuildings` collection has been
reprojected from EPSG:4326 to EPSG:3035 — regardless of which CRS was
requested; only the hard-coded target 3035 is ever produced. -/
theorem C9_reprojects_to_3035 (polyI : Poly → Poly → Bool)
    (polyCentroid : Poly → ℚ × ℚ) (fileWays : List OsmWay) (filename : String)
    (bounds : Option Box) (c : ℤ) (i : ℕ) (g : OutGeom)
    (hg : (IndustrialBuildings.init polyI polyCentroid fileWays filename bounds
        (some c)).getItem i = some g) :
    g.crsOf = 3035 ∧ ∃ b, g = .reproj 4326 3035 b := by
  simp only [IndustrialBuildings.getItem, IndustrialBuildings.init,
    Option.isSome_some, if_true] at hg
  obtain ⟨b, hb, rfl⟩ := Option.map_eq_some'.mp hg
  exact ⟨rfl, b, rfl⟩

/-- C9 witness: the amended theorem evaluated at a one-way OSM file with the
requested (and ignored) CRS 27700. -/
theorem C9_witness :
    (OutGeom.reproj 4326 3035
        (wayPoly
          { tags := [("building", "industrial")],
            nodes := [⟨0, 0, true⟩, ⟨10000000, 0, true⟩,
              ⟨0, 10000000, true⟩] })).crsOf = 3035 ∧
    ∃ b, (OutGeom.reproj 4326 3035
        (wayPoly
          { tags := [("building", "industrial")],
            nodes := [⟨0, 0, true⟩, ⟨10000000, 0, true⟩,
              ⟨0, 10000000, true⟩] })) = OutGeom.reproj 4326 3035 b :=
  C9_reprojects_to_3035 (fun _ _ => true) (fun _ => (0, 0))
    [{ tags := [("building", "industrial")],
       nodes := [⟨0, 0, true⟩, ⟨10000000, 0, true⟩, ⟨0, 10000000, true⟩] }]
    "f" none 27700 0
    (OutGeom.reproj 4326 3035
      (wayPoly
        { tags := [("building", "industrial")],
          nodes := [⟨0, 0, true⟩, ⟨10000000, 0, true⟩, ⟨0, 10000000, true⟩] }))
    rfl

/-- C10: the `bounds` argument of `IndustrialBuildings` has no effect on its
output — for any two bounding boxes (and the same file, geometry primitives
and CRS), the two collections hold the same building list, have the same
length and yield the same geometry at every index: the bounding box is
stored but never used to restrict the extraction. -/
theorem C10_bounds_unused (polyI : Poly → Poly → Bool)
    (polyCentroid : Poly → ℚ × ℚ) (fileWays : List OsmWay) (filename : String)
    (b1 b2 : Option Box) (crs : Option ℤ) :
    (IndustrialBuildings.init polyI polyCentroid fileWays filename b1
        crs).industrial_buildings =
      (IndustrialBuildings.init polyI polyCentroid fileWays filename b2
        crs).industrial_buildings ∧
    (∀ i : ℕ,
        (IndustrialBuildings.init polyI polyCentroid fileWays filename b1
            crs).getItem i =
          (IndustrialBuildings.init polyI polyCentroid fileWays filename b2
            crs).getItem i) :=
  ⟨rfl, fun _ => rfl⟩

end PC
